import Mathlib

/-!
Verification of the story_checker core (Word add-in taskpane logic).

The development shallowly embeds the TypeScript core in Lean:

* JavaScript string operations (`trim`, `includes`, `startsWith`, `split`,
  `substring`) are modelled on the character sequence (`String.data`).
  All strings appearing in the source are BMP text, so one Lean `Char`
  corresponds to one UTF-16 code unit and JS `length`/`substring` agree
  with character counts.
* The two variants of the pipeline are embedded separately:
  the current one (file `part_001`, namespace `Part001`) and the legacy
  taskpane variant (`taskpane.ts`, namespace `Taskpane`).
* Word-document effects (highlights, comments, ranges) are modelled as
  explicit state; `Word.Range` values are represented by `WRange`
  (a whole-paragraph range, or the first search hit for a string in the
  document body).
-/

namespace StoryChecker

/-! ## JavaScript string model -/

/-- Characters trimmed by JS `String.prototype.trim` and matched by `\s`,
modelled as Lean whitespace (all whitespace in this code base is ASCII or
ideographic space, covered by `Char.isWhitespace`). -/
def jsWsChar (c : Char) : Bool := c.isWhitespace

/-- Trim leading and trailing whitespace from a character list. -/
def trimChars (l : List Char) : List Char :=
  ((l.dropWhile jsWsChar).reverse.dropWhile jsWsChar).reverse

/-- JS `s.trim()`. -/
def jsTrim (s : String) : String := String.mk (trimChars s.data)

/-- Does `l` contain `sub` as a contiguous subsequence?  Decision procedure
for JS `s.includes(sub)`. -/
def containsSeq (sub : List Char) : List Char → Bool
  | [] => sub.isPrefixOf ([] : List Char)
  | x :: xs => sub.isPrefixOf (x :: xs) || containsSeq sub xs

/-- JS `s.includes(sub)`. -/
def jsIncludes (s sub : String) : Bool := containsSeq sub.data s.data

/-- JS `s.startsWith(pre)`. -/
def jsStartsWith (s pre : String) : Bool := pre.data.isPrefixOf s.data

/-- JS `s.substring(0, n)`. -/
def jsTake (n : Nat) (s : String) : String := String.mk (s.data.take n)

/-- Split a character list at every character satisfying `p`, keeping empty
segments (the behaviour of JS `split` with a single-character separator;
for `split(/\s+/)` the only difference is extra empty segments, which every
caller in the source filters away by a minimum-length test). -/
def charSplitBy (p : Char → Bool) : List Char → List (List Char)
  | [] => [[]]
  | x :: xs =>
    if p x then [] :: charSplitBy p xs
    else
      match charSplitBy p xs with
      | r :: rs => (x :: r) :: rs
      | [] => [[x]]

/-- JS `s.split(/\s+/)` (modulo empty tokens, see `charSplitBy`). -/
def jsSplitWs (s : String) : List String :=
  (charSplitBy jsWsChar s.data).map String.mk

/-- JS `s.split(' ')`. -/
def jsSplitSpace (s : String) : List String :=
  (charSplitBy (fun c => c = ' ') s.data).map String.mk

/-- JS `array.join(' ')`. -/
def jsJoinSpace (ws : List String) : String := String.intercalate " " ws

/-! ## Data model (§3 of the spec, interfaces at the top of both sources) -/

/-- interface Body { content: string } -/
structure Body where
  content : String
deriving DecidableEq, Repr

/-- interface Message { content: string; bodies: Body[] } -/
structure Message where
  content : String
  bodies : List Body
deriving DecidableEq, Repr

/-- interface Summary { content: string; messages: Message[] } -/
structure Summary where
  content : String
  messages : List Message
deriving DecidableEq, Repr

/-- interface BulletPointsRequest { summaries: Summary[]; title?: string }.
`part_001` always sets the title, so it is not optional here. -/
structure BulletPointsRequest where
  title : String
  summaries : List Summary
deriving DecidableEq, Repr

/-- A paragraph as read from the live document: its text and the two
indentation properties loaded by both variants.  Indents are Word points;
the source only compares them with `0` and divides by `24`, so `Int`
is a faithful carrier. -/
structure ParagraphRecord where
  text : String
  leftIndent : Int
  firstLineIndent : Int
deriving DecidableEq, Repr

/-- The regex test `^\d+[.)]\s` from the bullet classifier: one or more
digits, then `.` or `)`, then a whitespace character. -/
def matchesNumbered (s : String) : Bool :=
  let cs := s.data
  let rest := cs.dropWhile Char.isDigit
  decide (cs.takeWhile Char.isDigit ≠ []) &&
    match rest with
    | c :: d :: _ => (c = '.' || c = ')') && jsWsChar d
    | _ => false

/-- The bullet classifier shared by both variants: leading glyph, numbered
pattern, positive left indent, or hanging (negative first-line) indent.
The glyph tests run on the trimmed paragraph text, as in the source. -/
def isBulletParagraph (p : ParagraphRecord) : Bool :=
  let text := jsTrim p.text
  jsStartsWith text "•" || jsStartsWith text "-" || jsStartsWith text "*" ||
  jsStartsWith text "○" || jsStartsWith text "・" || matchesNumbered text ||
  p.leftIndent > 0 || p.firstLineIndent < 0

/-- Level inference: `min(2, floor(leftIndent / 24))` when the left indent is
positive, else level 0. -/
def bulletLevel (p : ParagraphRecord) : Nat :=
  if p.leftIndent > 0 then min 2 ((p.leftIndent / 24).toNat) else 0

/-- First cleanup replace: `^[•\-*○・]\s*` (one glyph and following
whitespace). -/
def stripGlyph (s : String) : String :=
  match s.data with
  | c :: rest =>
    if c = '•' || c = '-' || c = '*' || c = '○' || c = '・' then
      String.mk (rest.dropWhile jsWsChar)
    else s
  | [] => s

/-- Second cleanup replace: `^\d+[.)]\s*` (digits, one separator, following
whitespace; the whitespace may be empty here, unlike in the classifier). -/
def stripNumbering (s : String) : String :=
  let ds := s.data.takeWhile Char.isDigit
  let rest := s.data.dropWhile Char.isDigit
  if ds.isEmpty then s
  else
    match rest with
    | c :: rest2 => if c = '.' || c = ')' then String.mk (rest2.dropWhile jsWsChar) else s
    | [] => s

/-- Full cleanup of a detected bullet's (already trimmed) text. -/
def cleanBulletText (text : String) : String :=
  jsTrim (stripNumbering (stripGlyph text))

/-- A bullet candidate: cleaned text plus inferred level. -/
structure BulletPoint where
  text : String
  level : Nat
deriving DecidableEq, Repr

/-- The detection loop of `buildBulletPointsData` (part_001): skip empty
paragraphs, skip paragraphs whose trimmed text equals the title text, and
turn every bullet-classified paragraph into a candidate. -/
def detectBulletPoints (paragraphs : List ParagraphRecord) (titleText : String) :
    List BulletPoint :=
  paragraphs.filterMap fun p =>
    let text := jsTrim p.text
    if text = "" then none
    else if text = titleText then none
    else if isBulletParagraph p then some ⟨cleanBulletText text, bulletLevel p⟩
    else none

/-! ## Hierarchy Builder (§4.2; `buildBulletPointsData` loop in part_001,
`run` loop in taskpane.ts — the two loops are textually identical)

The imperative loop keeps two cursors `currentSummary` / `currentMessage`
that alias the most recently appended summary resp. message.  The state is
embedded without aliasing: finished summaries, plus an optional summary
under construction whose optional open message receives new bodies. -/

/-- The message currently under construction. -/
structure CurMessage where
  content : String
  bodies : List Body
deriving DecidableEq, Repr

/-- The summary currently under construction: content, finished messages,
and the open message (the `currentMessage` cursor). -/
structure CurSummary where
  content : String
  messages : List Message
  curMsg : Option CurMessage
deriving DecidableEq, Repr

/-- Builder state: finished summaries plus the summary under construction
(the `currentSummary` cursor; `none` exactly when `currentSummary` is null). -/
structure BuildState where
  done : List Summary
  cur : Option CurSummary
deriving DecidableEq, Repr

/-- Close the open message of a summary under construction. -/
def closeMessages (cs : CurSummary) : List Message :=
  cs.messages ++
    (match cs.curMsg with
     | some m => [⟨m.content, m.bodies⟩]
     | none => [])

/-- Flush the builder state into the final summary list. -/
def closeState (st : BuildState) : List Summary :=
  st.done ++
    (match st.cur with
     | some cs => [⟨cs.content, closeMessages cs⟩]
     | none => [])

/-- One iteration of the hierarchy loop.  Mirrors the source case by case:
empty text is skipped; level 0 starts a new summary and resets the message
cursor; level 1 synthesizes a `"未分類"` summary if none exists and opens a
new message; level 2 synthesizes missing parents and appends a body; any
other level falls through the `if`/`else if` chain untouched. -/
def stepBullet (st : BuildState) (bp : BulletPoint) : BuildState :=
  if bp.text = "" then st
  else if bp.level = 0 then
    { done := closeState st, cur := some ⟨bp.text, [], none⟩ }
  else if bp.level = 1 then
    match st.cur with
    | none => { st with cur := some ⟨"未分類", [], some ⟨bp.text, []⟩⟩ }
    | some cs => { st with cur := some ⟨cs.content, closeMessages cs, some ⟨bp.text, []⟩⟩ }
  else if bp.level = 2 then
    match st.cur with
    | none => { st with cur := some ⟨"未分類", [], some ⟨"未分類", [⟨bp.text⟩]⟩⟩ }
    | some cs =>
      match cs.curMsg with
      | none => { st with cur := some ⟨cs.content, cs.messages, some ⟨"未分類", [⟨bp.text⟩]⟩⟩ }
      | some m =>
        { st with cur := some ⟨cs.content, cs.messages, some ⟨m.content, m.bodies ++ [⟨bp.text⟩]⟩⟩ }
  else st

/-- The whole hierarchy loop over an ordered candidate sequence. -/
def buildSummaries (bps : List BulletPoint) : List Summary :=
  closeState (bps.foldl stepBullet ⟨[], none⟩)

/-- `buildBulletPointsData` (part_001): detect candidates, return `null`
when none were found, otherwise build the hierarchy with the given title. -/
def buildBulletPointsData (paragraphs : List ParagraphRecord) (titleText : String) :
    Option BulletPointsRequest :=
  let bulletPoints := detectBulletPoints paragraphs titleText
  if bulletPoints.isEmpty then none
  else some ⟨titleText, buildSummaries bulletPoints⟩

/-- The title used by `run` in part_001: the text of the *first* paragraph
of the document (`paragraphs.getFirst()`), whatever it is; `none` models the
exception thrown on an empty document. -/
def part001TitleText (paragraphs : List ParagraphRecord) : Option String :=
  paragraphs.head?.map ParagraphRecord.text

/-- The title detected by `run` in taskpane.ts: the trimmed text of the
first paragraph that is non-empty after trimming and is not classified as a
bullet (`titleParagraph === null` guards the capture, so it happens once). -/
def taskpaneTitle (paragraphs : List ParagraphRecord) : Option String :=
  (paragraphs.find? fun p => jsTrim p.text ≠ "" && !isBulletParagraph p).map
    fun p => jsTrim p.text

/-! ## Text Locator (§4.4): ranges and the shared index-search helper -/

/-- A `Word.Range` as far as the core observes it: the whole range of the
`i`-th paragraph, or the first search hit for a string in the document
body. -/
inductive WRange where
  | para (i : Nat)
  | bodyHit (s : String)
deriving DecidableEq, Repr

/-- Index of the first element satisfying `pred` (the `for` loops with an
early `return` in both locators). -/
def firstIdx (pred : α → Bool) : List α → Option Nat
  | [] => none
  | x :: xs => if pred x then some 0 else (firstIdx pred xs).map (· + 1)

/-- First `some` produced by `f` along a list (the keyword loop with an
early `return`). -/
def firstSome (f : α → Option β) : List α → Option β
  | [] => none
  | x :: xs =>
    match f x with
    | some b => some b
    | none => firstSome f xs

namespace Part001

/-- Truncation applied before any tier: texts longer than 255 UTF-16 units
are cut to their first 255. -/
def effectiveText (searchText : String) : String :=
  if searchText.length > 255 then jsTake 255 searchText else searchText

/-- First tier of part_001's `findTextInDocument`: the first paragraph whose
raw text *contains* the (truncated) search text.  (The source comment says
完全一致 — exact match — but the test is `includes`.)  The returned range is
the whole paragraph. -/
def tier1 (paragraphs : List String) (effective : String) : Option (Nat × WRange) :=
  (firstIdx (fun p => jsIncludes p effective) paragraphs).map fun i => (1, WRange.para i)

/-- Second tier: split the search text on whitespace, keep words longer than
3 units, search for the longest such word (later words win length ties, as
in the `reduce`). -/
def tier2 (paragraphs : List String) (effective : String) : Option (Nat × WRange) :=
  match (jsSplitWs effective).filter (fun w => w.length > 3) with
  | [] => none
  | w :: ws =>
    let longestWord := ws.foldl (fun a b => if a.length > b.length then a else b) w
    (firstIdx (fun p => jsIncludes p longestWord) paragraphs).map fun i => (2, WRange.para i)

/-- Third tier: if the (truncated) search text has more than 10 units,
search for its first 10 units. -/
def tier3 (paragraphs : List String) (effective : String) : Option (Nat × WRange) :=
  if effective.length > 10 then
    (firstIdx (fun p => jsIncludes p (jsTake 10 effective)) paragraphs).map
      fun i => (3, WRange.para i)
  else none

/-- part_001's `findTextInDocument`: guard against empty/whitespace-only
search text, truncate to 255 units, then try the three tiers in order.
The first component of the result records which tier produced the range
(the instrumentation the spec's testable properties ask for). -/
def findTextInDocument (paragraphs : List String) (searchText : String) :
    Option (Nat × WRange) :=
  if searchText = "" ∨ jsTrim searchText = "" then none
  else
    (tier1 paragraphs (effectiveText searchText)).orElse fun _ =>
      (tier2 paragraphs (effectiveText searchText)).orElse fun _ =>
        tier3 paragraphs (effectiveText searchText)

end Part001

namespace Taskpane

/-- The document as the legacy locator sees it: the cached paragraph texts
and the full body text (used by the body-wide search tiers). -/
structure LocDoc where
  paragraphs : List String
  body : String
deriving DecidableEq, Repr

/-- The hand-curated stop-word list of `extractKeywords`. -/
def commonWords : List String :=
  ["これ", "それ", "あれ", "この", "その", "あの", "ます", "です", "した",
   "ある", "いる", "れる", "られる", "など", "ため", "よう"]

/-- `extractKeywords`: split on whitespace, drop words shorter than 3 units
and stop words, deduplicate keeping first occurrences (`new Set`). -/
def extractKeywords (text : String) : List String :=
  let words := jsSplitWs text
  let filteredWords := words.filter fun w => decide (3 ≤ w.length) && !commonWords.contains w
  filteredWords.foldl (fun acc w => if w ∈ acc then acc else acc ++ [w]) []

/-- Tier 1 of the legacy locator: first paragraph whose trimmed text equals
the trimmed search text. -/
def tier1 (doc : LocDoc) (searchText : String) : Option (Nat × WRange) :=
  (firstIdx (fun p => jsTrim p == jsTrim searchText) doc.paragraphs).map
    fun i => (1, WRange.para i)

/-- Tier 2: first paragraph whose raw text contains the search text. -/
def tier2 (doc : LocDoc) (searchText : String) : Option (Nat × WRange) :=
  (firstIdx (fun p => jsIncludes p searchText) doc.paragraphs).map
    fun i => (2, WRange.para i)

/-- Tier 3: for texts longer than 10 units, join the first five
space-separated words and search the whole body for them (body search is
modelled as literal substring search, the collaborator surface of §6). -/
def tier3 (doc : LocDoc) (searchText : String) : Option (Nat × WRange) :=
  if searchText.length > 10 then
    let words := jsSplitSpace searchText
    let shortSearchText := jsJoinSpace (words.take (min 5 words.length))
    if shortSearchText.length > 3 then
      if jsIncludes doc.body shortSearchText then some (3, WRange.bodyHit shortSearchText)
      else none
    else none
  else none

/-- Tier 4, the keyword fallback: for each extracted keyword in order, if it
is strictly longer than 3 units, search the whole body; the first hit
wins. -/
def tier4 (doc : LocDoc) (searchText : String) : Option (Nat × WRange) :=
  firstSome
    (fun k => if k.length > 3 && jsIncludes doc.body k then some (4, WRange.bodyHit k) else none)
    (extractKeywords searchText)

/-- The legacy `findTextInDocument`: reject search texts shorter than 3
units, then try the four tiers in order. -/
def findTextInDocument (doc : LocDoc) (searchText : String) : Option (Nat × WRange) :=
  if searchText.length < 3 then none
  else
    (tier1 doc searchText).orElse fun _ =>
      (tier2 doc searchText).orElse fun _ =>
        (tier3 doc searchText).orElse fun _ => tier4 doc searchText

end Taskpane

/-! ## Evaluation results, scopes, score (§3, §4.3, §4.6) -/

/-- interface CriteriaResult.  `criteria` arrives from JSON, so it is kept
as a plain string. -/
structure CriteriaResult where
  criteria : String
  has_issues : Bool
  issues : String
deriving DecidableEq, Repr

/-- interface EvaluationResult.  `scope` arrives from JSON as a string;
the source compares it against the enum's string values. -/
structure EvaluationResult where
  target_text : String
  scope : String
  criteria_results : List CriteriaResult
deriving DecidableEq, Repr

/-- enum EvaluationScope. -/
inductive EvaluationScope where
  | document_wide
  | all_summaries
  | summary_pairs
  | summary_with_messages
  | messages_under_summary
  | message_with_bodies
deriving DecidableEq, Repr

/-- The string value of each enum member. -/
def scopeValue : EvaluationScope → String
  | .document_wide => "document_wide"
  | .all_summaries => "all_summaries"
  | .summary_pairs => "summary_pairs"
  | .summary_with_messages => "summary_with_messages"
  | .messages_under_summary => "messages_under_summary"
  | .message_with_bodies => "message_with_bodies"

/-- The `score` field of an evaluation response as received from JSON:
absent, `null`, a value `Number()` turns into `NaN`, or a number.  The
numeric case is carried as a rational: every comparison and rounding the
source performs on it is exact, so `ℚ` is a faithful carrier. -/
inductive ScoreField where
  | absent
  | jsNull
  | notNum
  | num (value : ℚ)
deriving DecidableEq

/-- interface EvaluationResponse. -/
structure EvaluationResponse where
  status : String
  message : String
  results : List EvaluationResult
  score : ScoreField
deriving DecidableEq

/-- Does a result have at least one failing criterion
(`criteria_results.some(cr => cr.has_issues)`)? -/
def resultHasIssues (r : EvaluationResult) : Bool :=
  r.criteria_results.any (·.has_issues)

/-- The tolerant scope comparison used by `filterCommentsByScope` and
`showHighestPriorityComments` (`resultScope === scope ||
resultScope === scope.toString() || resultScope.toString() ===
scope.toString()`).  TypeScript string-enum members *are* their string
values, so all three disjuncts collapse to one string equality. -/
def scopeMatches (resultScope : String) (sc : EvaluationScope) : Bool :=
  resultScope == scopeValue sc

/-- Per-scope issue presence over the full result set. -/
def scopeHasIssues (results : List EvaluationResult) (sc : EvaluationScope) : Bool :=
  results.any fun r => scopeMatches r.scope sc && resultHasIssues r

/-- The fixed priority order of `showHighestPriorityComments`. -/
def scopePriority : List EvaluationScope :=
  [.document_wide, .all_summaries, .summary_pairs, .summary_with_messages,
   .messages_under_summary, .message_with_bodies]

/-- Observable outcome of `showHighestPriorityComments`: the early return on
an empty result set, filtering to the chosen scope, or the show-all
fallback. -/
inductive PriorityOutcome where
  | noResults
  | filterScope (sc : EvaluationScope)
  | showAll
deriving DecidableEq, Repr

/-- The scope selection of `showHighestPriorityComments`: reject an empty
result set, otherwise linearly scan the fixed order for the first scope
with issues; with none found, fall back to showing all comments. -/
def showHighestPriorityOutcome (results : List EvaluationResult) : PriorityOutcome :=
  if results.isEmpty then .noResults
  else
    match scopePriority.find? (scopeHasIssues results) with
    | some sc => .filterScope sc
    | none => .showAll

/-- JS `Math.round` (round half up) on an exactly-represented number. -/
def jsRound (q : ℚ) : ℤ := ⌊q + 1 / 2⌋

/-- The score defaulting performed by `run`: keep a defined non-null score,
use 100 when the field is absent or null, and use 100 when `Number()`
yields `NaN`. -/
def effectiveScoreRun : ScoreField → ℚ
  | .absent => 100
  | .jsNull => 100
  | .notNum => 100
  | .num q => q

/-- The message tiers of `updateScore`. -/
inductive ScoreTier where
  | excellent
  | good
  | medium
  | low
  | veryLow
deriving DecidableEq, Repr

/-- The tier chosen by `updateScore` after rounding (the source binds the
rounded value once; it is inlined here). -/
def scoreTier (score : ℚ) : ScoreTier :=
  if 90 ≤ jsRound score then .excellent
  else if 70 ≤ jsRound score then .good
  else if 50 ≤ jsRound score then .medium
  else if 30 ≤ jsRound score then .low
  else .veryLow

/-- The number `updateScore` writes into the score display. -/
def displayedScore (f : ScoreField) : ℤ :=
  jsRound (effectiveScoreRun f)

/-! ## Annotation Manager (§4.5; `showAllComments`, `filterCommentsByScope`,
`removeAllComments` in part_001) -/

/-- A live comment: its anchor range and its text. -/
structure Comment where
  anchor : WRange
  text : String
deriving DecidableEq, Repr

/-- The document state the Annotation Manager mutates: immutable-in-a-pass
paragraph texts and body text, plus the applied highlights and comments. -/
structure AnnotDoc where
  paragraphs : List String
  body : String
  highlights : List WRange
  comments : List Comment
deriving DecidableEq, Repr

/-- `removeAllComments`: the source enumerates wildcard-search hits and
deletes every comment found on them; observably, all comments are gone. -/
def removeAllComments (d : AnnotDoc) : AnnotDoc :=
  { d with comments := [] }

/-- `getCriteriaName`: localized criteria names, the raw string when
unknown. -/
def getCriteriaName (criteria : String) : String :=
  if criteria = "rhetorical_expression" then "修辞表現の確認"
  else if criteria = "previous_discussion_review" then "前回討議の振り返りの有無"
  else if criteria = "scqa_presence" then "SCQAの有無"
  else if criteria = "duplicate_transition_conjunctions" then "転換の接続詞の重複利用"
  else if criteria = "conjunction_validity" then "前のサマリー文を踏まえたときの、接続詞の妥当性"
  else if criteria = "inappropriate_conjunctions" then "サマリー文に不適切な接続詞の有無"
  else if criteria = "logical_consistency_with_previous" then "直前のサマリーとの論理的整合性"
  else if criteria = "sequential_development" then "逐次的展開の評価"
  else if criteria = "conjunction_appropriateness" then "接続詞の適切性"
  else if criteria = "duplicate_transition_words" then "転換の接続詞の二重利用"
  else if criteria = "avoid_unnecessary_numbering" then "無駄なナンバリングの回避"
  else if criteria = "message_body_consistency" then "メッセージとボディの論理的整合性"
  else criteria

/-- `getScopeName` (part_001 wording). -/
def getScopeName (scope : String) : String :=
  if scope = "document_wide" then "ドキュメント全体"
  else if scope = "all_summaries" then "すべてのサマリー"
  else if scope = "summary_pairs" then "サマリーペア"
  else if scope = "summary_with_messages" then "サマリーとメッセージ"
  else if scope = "messages_under_summary" then "サマリー下のメッセージ"
  else if scope = "message_with_bodies" then "メッセージと本文"
  else scope

/-- The combined comment body for one finding: scope label plus every
failing criterion's localized name and issue text. -/
def commentTextFor (scopeLabel : String) (issuesCriteria : List CriteriaResult) : String :=
  "【" ++ scopeLabel ++ "】\n" ++
    String.intercalate "\n\n"
      (issuesCriteria.map fun cr => "【" ++ getCriteriaName cr.criteria ++ "】: " ++ cr.issues)

/-- Loop body of `showAllComments` for one finding with issues: the
title special case (scope string `all_summaries` and target equal to
`document.title`, the hosting page's title) anchors to the first paragraph;
otherwise the part_001 locator resolves the target, a missing hit skips the
finding.  Comment attachment is modelled as succeeding
(`addCommentSafely`'s failure is an editor-environment event). -/
def applyFindingAll (pageTitle : String) (d : AnnotDoc) (r : EvaluationResult) : AnnotDoc :=
  if r.scope = scopeValue .all_summaries ∧ r.target_text = pageTitle then
    { d with highlights := d.highlights ++ [WRange.para 0],
             comments := d.comments ++ [⟨WRange.para 0, commentTextFor (getScopeName r.scope)
               (r.criteria_results.filter (·.has_issues))⟩] }
  else
    match Part001.findTextInDocument d.paragraphs r.target_text with
    | some (_, rng) =>
      { d with highlights := d.highlights ++ [rng],
               comments := d.comments ++ [⟨rng, commentTextFor (getScopeName r.scope)
                 (r.criteria_results.filter (·.has_issues))⟩] }
    | none => d

/-- `showAllComments`: reject an empty result set (before any clearing),
otherwise clear all comments and re-attach one comment per finding with
issues. -/
def showAllComments (pageTitle : String) (results : List EvaluationResult)
    (d : AnnotDoc) : AnnotDoc :=
  if results.isEmpty then d
  else
    (results.filter resultHasIssues).foldl (applyFindingAll pageTitle) (removeAllComments d)

/-- Loop body of `filterCommentsByScope`; it differs from
`applyFindingAll` in testing the *requested* scope for the title special
case and labelling comments with the requested scope's name. -/
def applyFindingScoped (pageTitle : String) (sc : EvaluationScope) (d : AnnotDoc)
    (r : EvaluationResult) : AnnotDoc :=
  if sc = EvaluationScope.all_summaries ∧ r.target_text = pageTitle then
    { d with highlights := d.highlights ++ [WRange.para 0],
             comments := d.comments ++ [⟨WRange.para 0, commentTextFor
               (getScopeName (scopeValue sc)) (r.criteria_results.filter (·.has_issues))⟩] }
  else
    match Part001.findTextInDocument d.paragraphs r.target_text with
    | some (_, rng) =>
      { d with highlights := d.highlights ++ [rng],
               comments := d.comments ++ [⟨rng, commentTextFor
                 (getScopeName (scopeValue sc)) (r.criteria_results.filter (·.has_issues))⟩] }
    | none => d

/-- `filterCommentsByScope`: reject an empty result set, otherwise clear all
comments and re-attach only the findings with issues whose scope matches. -/
def filterCommentsByScope (pageTitle : String) (sc : EvaluationScope)
    (results : List EvaluationResult) (d : AnnotDoc) : AnnotDoc :=
  if results.isEmpty then d
  else
    (results.filter fun r => scopeMatches r.scope sc && resultHasIssues r).foldl
      (applyFindingScoped pageTitle sc) (removeAllComments d)

/-! ## The check pass (`run` in part_001) -/

/-- Process-wide session state owned by the pass. -/
structure SessionState where
  evaluationResults : List EvaluationResult
  lastCheckResults : Option EvaluationResponse
deriving DecidableEq

/-- What the Evaluation Gateway round trip produced: a transport failure
(`fetch` rejected), a non-2xx status (`!response.ok`), a body that is not
valid JSON (`response.json()` threw), or a parsed response. -/
inductive GatewayOutcome where
  | transportError
  | httpError (status : Nat)
  | malformedBody
  | ok (resp : EvaluationResponse)

/-- The document-side effect of `showHighestPriorityComments`: dispatch on
the selected outcome. -/
def applyHighestPriority (pageTitle : String) (results : List EvaluationResult)
    (d : AnnotDoc) : AnnotDoc :=
  match showHighestPriorityOutcome results with
  | .noResults => d
  | .filterScope sc => filterCommentsByScope pageTitle sc results d
  | .showAll => showAllComments pageTitle results d

/-- One `run` pass of part_001 over the session state and the document.
The document is read, the hierarchy built; with no structure detected the
gateway is never invoked.  On a transport error, a non-2xx status or a
malformed body the thrown error is caught after no state or document
mutation has happened.  Only a received, ok, parsed response updates
`lastCheckResults`/`evaluationResults`, and only a `"success"` status
triggers the annotation pass (clear-all, then highest-priority filtering). -/
def runCheck (paragraphs : List ParagraphRecord) (pageTitle : String)
    (st : SessionState) (d : AnnotDoc) (outcome : GatewayOutcome) :
    SessionState × AnnotDoc :=
  match part001TitleText paragraphs with
  | none => (st, d)
  | some titleText =>
    match buildBulletPointsData paragraphs titleText with
    | none => (st, d)
    | some req =>
      if req.summaries.isEmpty then (st, d)
      else
        match outcome with
        | .transportError => (st, d)
        | .httpError _ => (st, d)
        | .malformedBody => (st, d)
        | .ok resp =>
          let st' : SessionState := ⟨resp.results, some resp⟩
          if resp.status = "success" then
            (st', applyHighestPriority pageTitle resp.results (removeAllComments d))
          else (st', d)

/-! ## Supporting lemmas about the string model -/

theorem dropWhile_head_false (p : Char → Bool) {l : List Char} {c : Char} {cs : List Char}
    (h : l.dropWhile p = c :: cs) : p c = false := by
  have h2 := List.head?_dropWhile_not p l
  rw [h] at h2
  simpa using h2

theorem dropWhile_of_head_false {p : Char → Bool} {c : Char} (cs : List Char)
    (h : p c = false) : (c :: cs).dropWhile p = c :: cs := by
  simp [List.dropWhile_cons, h]

theorem trimChars_idem (l : List Char) : trimChars (trimChars l) = trimChars l := by
  rcases h2 : (l.dropWhile jsWsChar).reverse.dropWhile jsWsChar with _ | ⟨c, cs⟩
  · simp [trimChars, h2]
  · have hsuffix : (c :: cs) <:+ (l.dropWhile jsWsChar).reverse := by
      rw [← h2]; exact List.dropWhile_suffix _
    have hl1ne : l.dropWhile jsWsChar ≠ [] := by
      intro hnil
      rw [hnil] at hsuffix
      simp only [List.reverse_nil, List.suffix_nil] at hsuffix
      exact List.cons_ne_nil c cs hsuffix
    rcases hd : l.dropWhile jsWsChar with _ | ⟨d, ds⟩
    · exact absurd hd hl1ne
    have hdw : jsWsChar d = false := dropWhile_head_false jsWsChar hd
    have hlast : (c :: cs).getLast? = some d := by
      obtain ⟨t, ht⟩ := hsuffix
      have h1 : (t ++ c :: cs).getLast? = some d := by
        rw [ht, hd, List.getLast?_reverse]; rfl
      rwa [List.getLast?_append_of_ne_nil t (List.cons_ne_nil c cs)] at h1
    have hcchead : jsWsChar c = false := dropWhile_head_false jsWsChar h2
    have hrev : ((c :: cs).reverse).dropWhile jsWsChar = (c :: cs).reverse := by
      rcases hrc : (c :: cs).reverse with _ | ⟨e, es⟩
      · exact absurd hrc (by simp)
      · have h3 : (c :: cs).reverse.head? = some d := by
          rw [List.head?_reverse]; exact hlast
        rw [hrc] at h3
        have : e = d := by simpa using h3
        subst this
        exact dropWhile_of_head_false es hdw
    have htl : trimChars l = (c :: cs).reverse := by simp [trimChars, h2]
    rw [htl]
    unfold trimChars
    rw [hrev, List.reverse_reverse, dropWhile_of_head_false cs hcchead]

theorem trimChars_infix (l : List Char) : trimChars l <:+: l := by
  have h1 : l.dropWhile jsWsChar <:+ l := List.dropWhile_suffix _
  have h2 : (l.dropWhile jsWsChar).reverse.dropWhile jsWsChar <:+
      (l.dropWhile jsWsChar).reverse := List.dropWhile_suffix _
  have h3 : trimChars l <+: l.dropWhile jsWsChar := by
    obtain ⟨t, ht⟩ := h2
    refine ⟨t.reverse, ?_⟩
    unfold trimChars
    rw [← List.reverse_append, ht, List.reverse_reverse]
  exact List.IsInfix.trans ( List.IsPrefix.isInfix h3) ( List.IsSuffix.isInfix h1)

theorem jsTrim_idem (s : String) : jsTrim (jsTrim s) = jsTrim s := by
  unfold jsTrim
  rw [show (String.mk (trimChars s.data)).data = trimChars s.data from rfl, trimChars_idem]

theorem jsTrim_data_infix (s : String) : (jsTrim s).data <:+: s.data :=
  trimChars_infix s.data

theorem containsSeq_iff (sub l : List Char) : containsSeq sub l = true ↔ sub <:+: l := by
  induction l with
  | nil => simp [containsSeq, List.isPrefixOf_iff_prefix]
  | cons x xs ih =>
    rw [List.infix_cons_iff]
    simp [containsSeq, List.isPrefixOf_iff_prefix, ih]

theorem jsIncludes_iff (s sub : String) : jsIncludes s sub = true ↔ sub.data <:+: s.data :=
  containsSeq_iff sub.data s.data

theorem firstIdx_eq_none {α : Type _} (pred : α → Bool) (l : List α) :
    firstIdx pred l = none ↔ ∀ x ∈ l, pred x = false := by
  induction l with
  | nil => simp [firstIdx]
  | cons x xs ih => by_cases h : pred x <;> simp [firstIdx, h, ih]

theorem firstIdx_isSome_of_mem {α : Type _} (pred : α → Bool) {l : List α} {x : α}
    (hx : x ∈ l) (hp : pred x = true) : ∃ i, firstIdx pred l = some i := by
  rcases h : firstIdx pred l with _ | i
  · rw [firstIdx_eq_none] at h
    rw [h x hx] at hp
    cases hp
  · exact ⟨i, rfl⟩

theorem firstSome_eq_none {α β : Type _} (f : α → Option β) (l : List α) :
    firstSome f l = none ↔ ∀ x ∈ l, f x = none := by
  induction l with
  | nil => simp [firstSome]
  | cons x xs ih =>
    rcases h : f x with _ | b <;> simp [firstSome, h, ih]

theorem firstSome_append_of_first {α β : Type _} {f : α → Option β} {pre post : List α}
    {x : α} {b : β} (hpre : ∀ y ∈ pre, f y = none) (hx : f x = some b) :
    firstSome f (pre ++ x :: post) = some b := by
  induction pre with
  | nil => simp [firstSome, hx]
  | cons y ys ih =>
    have hy : f y = none := hpre y (List.mem_cons_self y ys)
    simp only [List.cons_append, firstSome, hy]
    exact ih fun z hz => hpre z (List.mem_cons_of_mem y hz)

/-! ## C10 — guards of the two locators -/

/-- C10: a search text that is empty or whitespace-only makes part_001's
`findTextInDocument` return null independently of the document's
paragraphs (so before any paragraph is examined; in this pure model no
document mutation exists on that path), and the legacy variant returns
null for every search text shorter than 3 characters. -/
theorem c10_locator_guards (paragraphs : List String) (doc : Taskpane.LocDoc)
    (s t : String) (hs : jsTrim s = "") (ht : t.length < 3) :
    Part001.findTextInDocument paragraphs s = none ∧
    Taskpane.findTextInDocument doc t = none := by
  constructor
  · unfold Part001.findTextInDocument
    rw [if_pos (Or.inr hs)]
  · unfold Taskpane.findTextInDocument
    rw [if_pos ht]

/-- Witness for C10 at concrete inputs. -/
theorem c10_locator_guards_witness :
    jsTrim "  " = "" ∧ "ab".length < 3 ∧
    Part001.findTextInDocument ["abc", "  "] "  " = none ∧
    Taskpane.findTextInDocument ⟨["ab"], "ab"⟩ "ab" = none := by
  refine ⟨by decide, by decide, ?_, ?_⟩
  · exact (c10_locator_guards ["abc", "  "] ⟨["ab"], "ab"⟩ "  " "ab" (by decide) (by decide)).1
  · exact (c10_locator_guards ["abc", "  "] ⟨["ab"], "ab"⟩ "  " "ab" (by decide) (by decide)).2

/-! ## C2 — which tier resolves a verbatim paragraph text -/

/-- C2 counterexample: the target `"abc"` occurs verbatim as the trimmed
text of paragraph 1, yet part_001's `findTextInDocument` resolves it in its
first tier by *substring containment*, returning paragraph 0 — whose
trimmed text is not the target.  The first tier is not an exact match
against each paragraph's trimmed text. -/
theorem c2_counterexample :
    (["xxabcxx", "abc"] : List String).get? 1 = some "abc" ∧ jsTrim "abc" = "abc" ∧
    Part001.findTextInDocument ["xxabcxx", "abc"] "abc" = some (1, WRange.para 0) ∧
    jsTrim "xxabcxx" ≠ "abc" := by decide

/-- C2 amended: a nonempty target occurring verbatim as some paragraph's
trimmed text is always resolved by the *first* tier of part_001's locator
(substring containment against raw paragraph text) — no later tier
(longest-word, prefix) is reached; in the legacy taskpane locator the same
holds for targets of length at least 3, whose first tier is the exact
trimmed-text comparison. -/
theorem c2_amended :
    (∀ (paragraphs : List String) (searchText : String), searchText ≠ "" →
      (∃ i p, paragraphs.get? i = some p ∧ jsTrim p = searchText) →
      ∃ j, Part001.findTextInDocument paragraphs searchText = some (1, WRange.para j)) ∧
    (∀ (doc : Taskpane.LocDoc) (searchText : String), 3 ≤ searchText.length →
      (∃ i p, doc.paragraphs.get? i = some p ∧ jsTrim p = searchText) →
      ∃ j, Taskpane.findTextInDocument doc searchText = some (1, WRange.para j)) := by
  constructor
  · rintro paragraphs searchText hne ⟨i, p, hget, htrim⟩
    have hmem : p ∈ paragraphs := List.get?_mem hget
    have hfix : jsTrim searchText = searchText := by rw [← htrim, jsTrim_idem]
    have hguard : ¬(searchText = "" ∨ jsTrim searchText = "") := by
      rintro (h | h)
      · exact hne h
      · rw [hfix] at h; exact hne h
    have hsub : searchText.data <:+: p.data := by
      rw [← htrim]; exact jsTrim_data_infix p
    have hincl : jsIncludes p (Part001.effectiveText searchText) = true := by
      rw [jsIncludes_iff]
      unfold Part001.effectiveText
      split
      · exact List.IsInfix.trans
          ( List.IsPrefix.isInfix (List.take_prefix 255 searchText.data)) hsub
      · exact hsub
    obtain ⟨j, hj⟩ :=
      firstIdx_isSome_of_mem (fun q => jsIncludes q (Part001.effectiveText searchText)) hmem hincl
    refine ⟨j, ?_⟩
    unfold Part001.findTextInDocument
    rw [if_neg hguard]
    unfold Part001.tier1
    rw [hj]
    rfl
  · rintro doc searchText hlen ⟨i, p, hget, htrim⟩
    have hmem : p ∈ doc.paragraphs := List.get?_mem hget
    have hfix : jsTrim searchText = searchText := by rw [← htrim, jsTrim_idem]
    have hpred : (jsTrim p == jsTrim searchText) = true := by
      rw [hfix, htrim]
      exact beq_self_eq_true searchText
    obtain ⟨j, hj⟩ :=
      firstIdx_isSome_of_mem (fun q => jsTrim q == jsTrim searchText) hmem hpred
    refine ⟨j, ?_⟩
    unfold Taskpane.findTextInDocument
    rw [if_neg (not_lt.mpr hlen)]
    unfold Taskpane.tier1
    rw [hj]
    rfl

/-- Witness for the amended C2 at concrete inputs. -/
theorem c2_amended_witness :
    ("abc" : String) ≠ "" ∧ 3 ≤ ("abc" : String).length ∧
    (∃ j, Part001.findTextInDocument ["zz", "abc"] "abc" = some (1, WRange.para j)) ∧
    (∃ j, Taskpane.findTextInDocument ⟨["zz", "abc"], ""⟩ "abc" = some (1, WRange.para j)) := by
  refine ⟨by decide, by decide, ?_, ?_⟩
  · exact c2_amended.1 ["zz", "abc"] "abc" (by decide) ⟨1, "abc", by decide, by decide⟩
  · exact c2_amended.2 ⟨["zz", "abc"], ""⟩ "abc" (by decide) ⟨1, "abc", by decide, by decide⟩

/-! ## Hierarchy Builder lemmas: one equation per branch of the loop -/

theorem stepBullet_skip (st : BuildState) (bp : BulletPoint) (ht : bp.text = "") :
    stepBullet st bp = st := by
  simp [stepBullet, ht]

theorem stepBullet_lvl0 (st : BuildState) (bp : BulletPoint) (ht : bp.text ≠ "")
    (h0 : bp.level = 0) :
    stepBullet st bp = ⟨closeState st, some ⟨bp.text, [], none⟩⟩ := by
  simp [stepBullet, ht, h0]

theorem stepBullet_lvl1_none (done : List Summary) (bp : BulletPoint) (ht : bp.text ≠ "")
    (h1 : bp.level = 1) :
    stepBullet ⟨done, none⟩ bp = ⟨done, some ⟨"未分類", [], some ⟨bp.text, []⟩⟩⟩ := by
  simp [stepBullet, ht, h1]

theorem stepBullet_lvl1_some (done : List Summary) (cs : CurSummary) (bp : BulletPoint)
    (ht : bp.text ≠ "") (h1 : bp.level = 1) :
    stepBullet ⟨done, some cs⟩ bp =
      ⟨done, some ⟨cs.content, closeMessages cs, some ⟨bp.text, []⟩⟩⟩ := by
  simp [stepBullet, ht, h1]

theorem stepBullet_lvl2_none (done : List Summary) (bp : BulletPoint) (ht : bp.text ≠ "")
    (h2 : bp.level = 2) :
    stepBullet ⟨done, none⟩ bp =
      ⟨done, some ⟨"未分類", [], some ⟨"未分類", [⟨bp.text⟩]⟩⟩⟩ := by
  simp [stepBullet, ht, h2]

theorem stepBullet_lvl2_some_none (done : List Summary) (cs : CurSummary) (bp : BulletPoint)
    (hcm : cs.curMsg = none) (ht : bp.text ≠ "") (h2 : bp.level = 2) :
    stepBullet ⟨done, some cs⟩ bp =
      ⟨done, some ⟨cs.content, cs.messages, some ⟨"未分類", [⟨bp.text⟩]⟩⟩⟩ := by
  simp [stepBullet, ht, h2, hcm]

theorem stepBullet_lvl2_some_some (done : List Summary) (cs : CurSummary) (m : CurMessage)
    (bp : BulletPoint) (hcm : cs.curMsg = some m) (ht : bp.text ≠ "") (h2 : bp.level = 2) :
    stepBullet ⟨done, some cs⟩ bp =
      ⟨done, some ⟨cs.content, cs.messages, some ⟨m.content, m.bodies ++ [⟨bp.text⟩]⟩⟩⟩ := by
  simp [stepBullet, ht, h2, hcm]

theorem stepBullet_other (st : BuildState) (bp : BulletPoint) (ht : bp.text ≠ "")
    (h0 : bp.level ≠ 0) (h1 : bp.level ≠ 1) (h2 : bp.level ≠ 2) :
    stepBullet st bp = st := by
  simp [stepBullet, ht, h0, h1, h2]

/-! ## C1 — every level-1/2 candidate ends up properly nested -/

/-- All message contents of a summary forest, in order. -/
def treeMessageTexts (ss : List Summary) : List String :=
  ss.flatMap fun s => s.messages.map Message.content

/-- All body contents of a summary forest, in order. -/
def treeBodyTexts (ss : List Summary) : List String :=
  ss.flatMap fun s => s.messages.flatMap fun m => m.bodies.map Body.content

/-- One loop iteration only appends message/body texts, and a non-empty
level-1 (resp. level-2) candidate's text is among the appended message
(resp. body) texts. -/
theorem stepBullet_texts_delta (st : BuildState) (bp : BulletPoint) :
    ∃ ms bs,
      treeMessageTexts (closeState (stepBullet st bp)) =
        treeMessageTexts (closeState st) ++ ms ∧
      treeBodyTexts (closeState (stepBullet st bp)) =
        treeBodyTexts (closeState st) ++ bs ∧
      (bp.level = 1 → bp.text ≠ "" → bp.text ∈ ms) ∧
      (bp.level = 2 → bp.text ≠ "" → bp.text ∈ bs) := by
  by_cases ht : bp.text = ""
  · refine ⟨[], [], ?_, ?_, ?_, ?_⟩
    · rw [stepBullet_skip st bp ht]; simp
    · rw [stepBullet_skip st bp ht]; simp
    · intro _ h; exact absurd ht h
    · intro _ h; exact absurd ht h
  by_cases h0 : bp.level = 0
  · refine ⟨[], [], ?_, ?_, ?_, ?_⟩
    · rw [stepBullet_lvl0 st bp ht h0]
      simp [closeState, closeMessages, treeMessageTexts]
    · rw [stepBullet_lvl0 st bp ht h0]
      simp [closeState, closeMessages, treeBodyTexts]
    · intro h; rw [h0] at h; cases h
    · intro h; rw [h0] at h; cases h
  by_cases h1 : bp.level = 1
  · rcases st with ⟨done, cur⟩
    rcases cur with _ | cs
    · refine ⟨[bp.text], [], ?_, ?_, ?_, ?_⟩
      · rw [stepBullet_lvl1_none done bp ht h1]
        simp [closeState, closeMessages, treeMessageTexts]
      · rw [stepBullet_lvl1_none done bp ht h1]
        simp [closeState, closeMessages, treeBodyTexts]
      · intro _ _; exact List.mem_singleton_self _
      · intro h; rw [h1] at h; cases h
    · refine ⟨[bp.text], [], ?_, ?_, ?_, ?_⟩
      · rw [stepBullet_lvl1_some done cs bp ht h1]
        simp [closeState, closeMessages, treeMessageTexts]
      · rw [stepBullet_lvl1_some done cs bp ht h1]
        simp [closeState, closeMessages, treeBodyTexts]
      · intro _ _; exact List.mem_singleton_self _
      · intro h; rw [h1] at h; cases h
  by_cases h2 : bp.level = 2
  · rcases st with ⟨done, cur⟩
    rcases cur with _ | cs
    · refine ⟨["未分類"], [bp.text], ?_, ?_, ?_, ?_⟩
      · rw [stepBullet_lvl2_none done bp ht h2]
        simp [closeState, closeMessages, treeMessageTexts]
      · rw [stepBullet_lvl2_none done bp ht h2]
        simp [closeState, closeMessages, treeBodyTexts]
      · intro h; exact absurd h h1
      · intro _ _; exact List.mem_singleton_self _
    · rcases hcm : cs.curMsg with _ | m
      · refine ⟨["未分類"], [bp.text], ?_, ?_, ?_, ?_⟩
        · rw [stepBullet_lvl2_some_none done cs bp hcm ht h2]
          simp [closeState, closeMessages, treeMessageTexts, hcm]
        · rw [stepBullet_lvl2_some_none done cs bp hcm ht h2]
          simp [closeState, closeMessages, treeBodyTexts, hcm]
        · intro h; exact absurd h h1
        · intro _ _; exact List.mem_singleton_self _
      · refine ⟨[], [bp.text], ?_, ?_, ?_, ?_⟩
        · rw [stepBullet_lvl2_some_some done cs m bp hcm ht h2]
          simp [closeState, closeMessages, treeMessageTexts, hcm]
        · rw [stepBullet_lvl2_some_some done cs m bp hcm ht h2]
          simp [closeState, closeMessages, treeBodyTexts, hcm]
        · intro h; exact absurd h h1
        · intro _ _; exact List.mem_singleton_self _
  · refine ⟨[], [], ?_, ?_, ?_, ?_⟩
    · rw [stepBullet_other st bp ht h0 h1 h2]; simp
    · rw [stepBullet_other st bp ht h0 h1 h2]; simp
    · intro h; exact absurd h h1
    · intro h; exact absurd h h2

/-- Folding more candidates never loses message/body texts. -/
theorem foldl_texts_mem (l : List BulletPoint) (st : BuildState) (x : String) :
    (x ∈ treeMessageTexts (closeState st) →
      x ∈ treeMessageTexts (closeState (l.foldl stepBullet st))) ∧
    (x ∈ treeBodyTexts (closeState st) →
      x ∈ treeBodyTexts (closeState (l.foldl stepBullet st))) := by
  induction l generalizing st with
  | nil => exact ⟨id, id⟩
  | cons b bs ih =>
    obtain ⟨ms, bsx, hm, hb, _, _⟩ := stepBullet_texts_delta st b
    refine ⟨fun hx => ?_, fun hx => ?_⟩
    · exact (ih (stepBullet st b) ).1 (by rw [hm]; exact List.mem_append_left _ hx)
    · exact (ih (stepBullet st b) ).2 (by rw [hb]; exact List.mem_append_left _ hx)

/-- C1: over every ordered candidate sequence the Hierarchy Builder produces
a forest in which each non-empty level-1 candidate's text is the content of
a Message nested in some Summary, and each non-empty level-2 candidate's
text is the content of a Body nested in a Message nested in some Summary —
no orphans, even when level-1/level-2 candidates precede any level-0 one. -/
theorem c1_no_orphans (bps : List BulletPoint) (bp : BulletPoint) (hmem : bp ∈ bps)
    (hne : bp.text ≠ "") :
    (bp.level = 1 → ∃ s, s ∈ buildSummaries bps ∧
      ∃ m, m ∈ s.messages ∧ m.content = bp.text) ∧
    (bp.level = 2 → ∃ s, s ∈ buildSummaries bps ∧
      ∃ m, m ∈ s.messages ∧ ∃ b, b ∈ m.bodies ∧ b.content = bp.text) := by
  obtain ⟨l₁, l₂, rfl⟩ := List.append_of_mem hmem
  unfold buildSummaries
  rw [List.foldl_append, List.foldl_cons]
  obtain ⟨ms, bs, hm, hb, hins1, hins2⟩ :=
    stepBullet_texts_delta (l₁.foldl stepBullet ⟨[], none⟩) bp
  constructor
  · intro h1
    have hx : bp.text ∈ treeMessageTexts (closeState
        (stepBullet (l₁.foldl stepBullet ⟨[], none⟩) bp)) := by
      rw [hm]; exact List.mem_append_right _ (hins1 h1 hne)
    have hmemfin := (foldl_texts_mem l₂ (stepBullet (l₁.foldl stepBullet ⟨[], none⟩) bp)
      bp.text).1 hx
    obtain ⟨s, hsmem, hmm⟩ := List.mem_flatMap.mp hmemfin
    obtain ⟨m, hmmem, hmc⟩ := List.mem_map.mp hmm
    exact ⟨s, hsmem, m, hmmem, hmc⟩
  · intro h2
    have hx : bp.text ∈ treeBodyTexts (closeState
        (stepBullet (l₁.foldl stepBullet ⟨[], none⟩) bp)) := by
      rw [hb]; exact List.mem_append_right _ (hins2 h2 hne)
    have hmemfin := (foldl_texts_mem l₂ (stepBullet (l₁.foldl stepBullet ⟨[], none⟩) bp)
      bp.text).2 hx
    obtain ⟨s, hsmem, hmm⟩ := List.mem_flatMap.mp hmemfin
    obtain ⟨m, hmmem, hmb⟩ := List.mem_flatMap.mp hmm
    obtain ⟨b, hbmem, hbc⟩ := List.mem_map.mp hmb
    exact ⟨s, hsmem, m, hmmem, b, hbmem, hbc⟩

/-- Witness for C1 at a concrete candidate sequence whose level-2 and
level-1 candidates precede any level-0 candidate. -/
theorem c1_no_orphans_witness :
    ((⟨"m", 1⟩ : BulletPoint) ∈ [(⟨"b", 2⟩ : BulletPoint), ⟨"m", 1⟩]) ∧
    (∃ s, s ∈ buildSummaries [(⟨"b", 2⟩ : BulletPoint), ⟨"m", 1⟩] ∧
      ∃ m, m ∈ s.messages ∧ m.content = "m") :=
  ⟨by decide,
   (c1_no_orphans [⟨"b", 2⟩, ⟨"m", 1⟩] ⟨"m", 1⟩ (by decide) (by decide)).1 rfl⟩

/-! ## C5 — the synthesized placeholder Summary -/

/-- Folding candidates with empty text leaves the builder state unchanged. -/
theorem foldl_stepBullet_empties :
    ∀ (pre : List BulletPoint), (∀ b ∈ pre, b.text = "") →
      ∀ st : BuildState, pre.foldl stepBullet st = st
  | [], _, _ => rfl
  | b :: bs, hpre, st => by
    have hb : b.text = "" := hpre b (List.mem_cons_self b bs)
    simp only [List.foldl_cons, stepBullet_skip st b hb]
    exact foldl_stepBullet_empties bs (fun x hx => hpre x (List.mem_cons_of_mem b hx)) st

/-- Invariant: the first summary of the flushed state is the `"未分類"`
placeholder and its first message has content `msg`. -/
def headPlaceholder (msg : String) (st : BuildState) : Prop :=
  ∃ s, (closeState st).head? = some s ∧ s.content = "未分類" ∧
    s.messages.head?.map Message.content = some msg

theorem head_map_content_append (l l2 : List Message) {msg : String}
    (h : l.head?.map Message.content = some msg) :
    (l ++ l2).head?.map Message.content = some msg := by
  cases l with
  | nil => simp at h
  | cons m ms => simpa using h

theorem closeMessages_mk_some (c : String) (msgs : List Message) (m : CurMessage) :
    closeMessages ⟨c, msgs, some m⟩ = msgs ++ [⟨m.content, m.bodies⟩] := rfl

theorem closeMessages_mk_none (c : String) (msgs : List Message) :
    closeMessages ⟨c, msgs, none⟩ = msgs := by
  simp [closeMessages]

/-- The loop never disturbs the placeholder head summary once created. -/
theorem stepBullet_headPlaceholder {msg : String} {st : BuildState} (bp : BulletPoint)
    (h : headPlaceholder msg st) : headPlaceholder msg (stepBullet st bp) := by
  obtain ⟨s, hs, hcontent, hmsg⟩ := h
  by_cases ht : bp.text = ""
  · rw [stepBullet_skip st bp ht]
    exact ⟨s, hs, hcontent, hmsg⟩
  rcases st with ⟨done, cur⟩
  rcases done with _ | ⟨d, ds⟩
  · -- no finished summary yet: the placeholder is the summary under construction
    rcases cur with _ | cs
    · simp [closeState] at hs
    have hseq : s = ⟨cs.content, closeMessages cs⟩ := by
      simp [closeState] at hs
      exact hs.symm
    subst hseq
    have hcontent' : cs.content = "未分類" := hcontent
    have hmsg' : (closeMessages cs).head?.map Message.content = some msg := hmsg
    by_cases h0 : bp.level = 0
    · rw [stepBullet_lvl0 _ bp ht h0]
      refine ⟨⟨cs.content, closeMessages cs⟩, ?_, hcontent', hmsg'⟩
      simp [closeState, closeMessages]
    by_cases h1 : bp.level = 1
    · rw [stepBullet_lvl1_some [] cs bp ht h1]
      refine ⟨⟨cs.content, closeMessages cs ++ [⟨bp.text, []⟩]⟩, ?_, hcontent', ?_⟩
      · simp [closeState, closeMessages_mk_some]
      · exact head_map_content_append (closeMessages cs) _ hmsg'
    by_cases h2 : bp.level = 2
    · rcases hcm : cs.curMsg with _ | m
      · rw [stepBullet_lvl2_some_none [] cs bp hcm ht h2]
        have hmm : cs.messages.head?.map Message.content = some msg := by
          rw [closeMessages, hcm] at hmsg'
          simpa using hmsg'
        refine ⟨⟨cs.content, cs.messages ++ [⟨"未分類", [⟨bp.text⟩]⟩]⟩, ?_, hcontent', ?_⟩
        · simp [closeState, closeMessages_mk_some]
        · exact head_map_content_append cs.messages _ hmm
      · rw [stepBullet_lvl2_some_some [] cs m bp hcm ht h2]
        have hmm : (cs.messages ++ [(⟨m.content, m.bodies⟩ : Message)]).head?.map
            Message.content = some msg := by
          rw [closeMessages, hcm] at hmsg'
          exact hmsg'
        refine ⟨⟨cs.content, cs.messages ++ [⟨m.content, m.bodies ++ [⟨bp.text⟩]⟩]⟩, ?_,
          hcontent', ?_⟩
        · simp [closeState, closeMessages_mk_some]
        · rcases hl : cs.messages with _ | ⟨m0, ms⟩
          · rw [hl] at hmm
            simpa using hmm
          · rw [hl] at hmm
            simpa using hmm
    · rw [stepBullet_other _ bp ht h0 h1 h2]
      exact ⟨⟨cs.content, closeMessages cs⟩, hs, hcontent', hmsg'⟩
  · -- a finished summary exists; it stays the head in every branch
    have hd : d = s := by
      rcases cur with _ | cs <;> simpa [closeState] using hs
    subst hd
    by_cases h0 : bp.level = 0
    · rw [stepBullet_lvl0 _ bp ht h0]
      refine ⟨d, ?_, hcontent, hmsg⟩
      rcases cur with _ | cs <;> simp [closeState, closeMessages]
    by_cases h1 : bp.level = 1
    · rcases cur with _ | cs
      · rw [stepBullet_lvl1_none (d :: ds) bp ht h1]
        exact ⟨d, by simp [closeState], hcontent, hmsg⟩
      · rw [stepBullet_lvl1_some (d :: ds) cs bp ht h1]
        exact ⟨d, by simp [closeState], hcontent, hmsg⟩
    by_cases h2 : bp.level = 2
    · rcases cur with _ | cs
      · rw [stepBullet_lvl2_none (d :: ds) bp ht h2]
        exact ⟨d, by simp [closeState], hcontent, hmsg⟩
      · rcases hcm : cs.curMsg with _ | m
        · rw [stepBullet_lvl2_some_none (d :: ds) cs bp hcm ht h2]
          exact ⟨d, by simp [closeState], hcontent, hmsg⟩
        · rw [stepBullet_lvl2_some_some (d :: ds) cs m bp hcm ht h2]
          exact ⟨d, by simp [closeState], hcontent, hmsg⟩
    · rw [stepBullet_other _ bp ht h0 h1 h2]
      exact ⟨d, hs, hcontent, hmsg⟩

theorem foldl_headPlaceholder {msg : String} (l : List BulletPoint) {st : BuildState}
    (h : headPlaceholder msg st) : headPlaceholder msg (l.foldl stepBullet st) := by
  induction l generalizing st with
  | nil => exact h
  | cons b bs ih => exact ih (stepBullet_headPlaceholder b h)

/-- C5 counterexample: a level-1 candidate with no preceding level-0
candidate gets a synthesized parent Summary whose content is the Japanese
placeholder `"未分類"`, not the string `"unclassified"` the claim states. -/
theorem c5_counterexample :
    buildSummaries [⟨"m", 1⟩] = [⟨"未分類", [⟨"m", []⟩]⟩] ∧
    ("未分類" : String) ≠ "unclassified" := by decide

/-- C5 amended: when the first candidate with non-empty text has level 1
(any candidates before it are empty-text, hence skipped; in particular no
level-0 candidate precedes), the Hierarchy Builder synthesizes a Summary
with placeholder content `"未分類"` ("unclassified") and appends it first,
so the output's first Summary carries exactly that placeholder content and
its first Message is the candidate's. -/
theorem c5_placeholder_summary (pre : List BulletPoint) (c : BulletPoint)
    (post : List BulletPoint) (hpre : ∀ b ∈ pre, b.text = "") (hc : c.text ≠ "")
    (hl : c.level = 1) :
    ∃ s, (buildSummaries (pre ++ c :: post)).head? = some s ∧ s.content = "未分類" ∧
      s.messages.head?.map Message.content = some c.text := by
  unfold buildSummaries
  rw [List.foldl_append, foldl_stepBullet_empties pre hpre, List.foldl_cons]
  have hstep : stepBullet ⟨[], none⟩ c = ⟨[], some ⟨"未分類", [], some ⟨c.text, []⟩⟩⟩ :=
    stepBullet_lvl1_none [] c hc hl
  rw [hstep]
  exact foldl_headPlaceholder post
    ⟨⟨"未分類", [⟨c.text, []⟩]⟩, by simp [closeState, closeMessages], rfl, rfl⟩

/-- Witness for the amended C5 at a concrete candidate sequence. -/
theorem c5_placeholder_summary_witness :
    (∀ b ∈ [(⟨"", 0⟩ : BulletPoint)], b.text = "") ∧ ("m1" : String) ≠ "" ∧
    (∃ s, (buildSummaries [(⟨"", 0⟩ : BulletPoint), ⟨"m1", 1⟩, ⟨"b1", 2⟩]).head? = some s ∧
      s.content = "未分類" ∧ s.messages.head?.map Message.content = some "m1") := by
  refine ⟨by decide, by decide, ?_⟩
  exact c5_placeholder_summary [⟨"", 0⟩] ⟨"m1", 1⟩ [⟨"b1", 2⟩] (by decide) (by decide) rfl

/-! ## C3 — Scope Priority Resolver -/

theorem ne_nil_of_scopeHasIssues {results : List EvaluationResult} {sc : EvaluationScope}
    (h : scopeHasIssues results sc = true) : results ≠ [] := by
  rintro rfl
  simp [scopeHasIssues] at h

/-- C3 counterexample: with an empty result set no scope has issues, yet
`showHighestPriorityComments` returns early instead of falling back to
showing all findings (the show-all pass would clear existing comments; the
early return does not). -/
theorem c3_counterexample :
    (∀ sc ∈ scopePriority, scopeHasIssues [] sc = false) ∧
    showHighestPriorityOutcome [] = .noResults ∧
    showHighestPriorityOutcome [] ≠ .showAll := by decide

/-- C3 amended: over a non-empty result set the resolver scans the fixed
priority order and selects the first scope with a failing criterion —
issues in `DOCUMENT_WIDE` (alone or together with lower scopes) select it,
issues only in `MESSAGE_WITH_BODIES` select that scope, a selected scope
always has issues, and with no issues anywhere a non-empty set falls back
to show-all; an empty set instead returns early. -/
theorem c3_priority_scan (results : List EvaluationResult) :
    (scopeHasIssues results .document_wide = true →
      showHighestPriorityOutcome results = .filterScope .document_wide) ∧
    (scopeHasIssues results .message_with_bodies = true →
      scopeHasIssues results .document_wide = false →
      scopeHasIssues results .all_summaries = false →
      scopeHasIssues results .summary_pairs = false →
      scopeHasIssues results .summary_with_messages = false →
      scopeHasIssues results .messages_under_summary = false →
      showHighestPriorityOutcome results = .filterScope .message_with_bodies) ∧
    (results ≠ [] → (∀ sc, scopeHasIssues results sc = false) →
      showHighestPriorityOutcome results = .showAll) ∧
    (∀ sc, showHighestPriorityOutcome results = .filterScope sc →
      scopeHasIssues results sc = true) := by
  refine ⟨?_, ?_, ?_, ?_⟩
  · intro h
    have hne : results ≠ [] := ne_nil_of_scopeHasIssues h
    unfold showHighestPriorityOutcome scopePriority
    rw [if_neg (by simpa using hne), List.find?_cons_of_pos _ h]
  · intro h h1 h2 h3 h4 h5
    have hne : results ≠ [] := ne_nil_of_scopeHasIssues h
    unfold showHighestPriorityOutcome scopePriority
    rw [if_neg (by simpa using hne),
      List.find?_cons_of_neg _ (by simp [h1]), List.find?_cons_of_neg _ (by simp [h2]),
      List.find?_cons_of_neg _ (by simp [h3]), List.find?_cons_of_neg _ (by simp [h4]),
      List.find?_cons_of_neg _ (by simp [h5]), List.find?_cons_of_pos _ h]
  · intro hne hall
    unfold showHighestPriorityOutcome
    rw [if_neg (by simpa using hne),
      List.find?_eq_none.mpr (fun sc _ => by simp [hall sc])]
  · intro sc h
    unfold showHighestPriorityOutcome at h
    by_cases he : results.isEmpty
    · rw [if_pos he] at h
      cases h
    · rw [if_neg he] at h
      rcases hf : scopePriority.find? (scopeHasIssues results) with _ | sc'
      · rw [hf] at h
        cases h
      · rw [hf] at h
        have hsc : sc' = sc := by
          cases h
          rfl
        subst hsc
        exact List.find?_some hf

/-- Witness for the amended C3 at a concrete result set. -/
theorem c3_priority_scan_witness :
    scopeHasIssues [⟨"t", "document_wide", [⟨"c", true, "i"⟩]⟩] .document_wide = true ∧
    showHighestPriorityOutcome [⟨"t", "document_wide", [⟨"c", true, "i"⟩]⟩] =
      .filterScope .document_wide :=
  ⟨by decide, (c3_priority_scan [⟨"t", "document_wide", [⟨"c", true, "i"⟩]⟩]).1 (by decide)⟩

/-! ## C4 — document title detection and exclusion -/

/-- C4 counterexample: in part_001, the title is the text of the literal
first paragraph — here the bullet `"• A"` — even though that paragraph is
classified as a bullet and the first non-bullet paragraph is `"Title"`
(which the legacy variant picks instead). -/
theorem c4_counterexample :
    part001TitleText [⟨"• A", 0, 0⟩, ⟨"Title", 0, 0⟩] = some "• A" ∧
    isBulletParagraph ⟨"• A", 0, 0⟩ = true ∧
    isBulletParagraph ⟨"Title", 0, 0⟩ = false ∧
    taskpaneTitle [⟨"• A", 0, 0⟩, ⟨"Title", 0, 0⟩] = some "Title" := by decide

theorem filterMap_middle_none {α β : Type _} (f : α → Option β) (l₁ l₂ : List α) (a : α)
    (h : f a = none) : (l₁ ++ a :: l₂).filterMap f = (l₁ ++ l₂).filterMap f := by
  rw [List.filterMap_append, List.filterMap_append]
  simp [List.filterMap_cons, h]

/-- C4 amended: in part_001 the title is the raw text of the document's
first paragraph, whatever it is, and every paragraph whose trimmed text
equals the title text is excluded from the bullet hierarchy; in the legacy
taskpane variant the title is the trimmed text of the first paragraph that
is non-empty after trimming and not classified as a bullet. -/
theorem c4_title_handling :
    (∀ (p : ParagraphRecord) (ps : List ParagraphRecord),
      part001TitleText (p :: ps) = some p.text) ∧
    (∀ (titleText : String) (ps₁ ps₂ : List ParagraphRecord) (p : ParagraphRecord),
      jsTrim p.text = titleText →
      detectBulletPoints (ps₁ ++ p :: ps₂) titleText =
        detectBulletPoints (ps₁ ++ ps₂) titleText) ∧
    (∀ (pre post : List ParagraphRecord) (p : ParagraphRecord),
      (∀ q ∈ pre, jsTrim q.text = "" ∨ isBulletParagraph q = true) →
      jsTrim p.text ≠ "" → isBulletParagraph p = false →
      taskpaneTitle (pre ++ p :: post) = some (jsTrim p.text)) := by
  refine ⟨fun p ps => rfl, ?_, ?_⟩
  · intro titleText ps₁ ps₂ p h
    unfold detectBulletPoints
    apply filterMap_middle_none
    by_cases h0 : jsTrim p.text = "" <;> simp [h0, h]
  · intro pre post p hpre hne hbul
    unfold taskpaneTitle
    rw [List.find?_append, List.find?_eq_none.mpr ?hpre, List.find?_cons_of_pos _ ?hp]
    case hp => simp [hne, hbul]
    case hpre =>
      intro q hq hpq
      rcases hpre q hq with h | h <;> simp [h] at hpq
    rfl

/-- Witness for the amended C4 at concrete inputs. -/
theorem c4_title_handling_witness :
    jsTrim "T" = "T" ∧ jsTrim "Title" ≠ "" ∧ isBulletParagraph ⟨"Title", 0, 0⟩ = false ∧
    part001TitleText [(⟨"T", 0, 0⟩ : ParagraphRecord)] = some "T" ∧
    detectBulletPoints [⟨"T", 0, 0⟩, ⟨"• A", 0, 0⟩] "T" =
      detectBulletPoints [⟨"• A", 0, 0⟩] "T" ∧
    taskpaneTitle [⟨"• B", 0, 0⟩, ⟨"Title", 0, 0⟩] = some (jsTrim "Title") := by
  refine ⟨by decide, by decide, by decide, ?_, ?_, ?_⟩
  · exact c4_title_handling.1 ⟨"T", 0, 0⟩ []
  · exact c4_title_handling.2.1 "T" [] [⟨"• A", 0, 0⟩] ⟨"T", 0, 0⟩ (by decide)
  · exact c4_title_handling.2.2 [⟨"• B", 0, 0⟩] [] ⟨"Title", 0, 0⟩
      (by intro q hq; right; simp at hq; rw [hq]; decide) (by decide) (by decide)

/-! ## C6 — gateway failures leave session state and document untouched -/

/-- C6: on a transport error or a non-2xx HTTP status, the `run` pass
leaves the prior session state (`evaluationResults`, `lastCheckResults`)
and the document (comments, highlights) exactly as they were: no comment
removal, highlight, or state overwrite happens on a failed round trip. -/
theorem c6_failure_preserves_state (paragraphs : List ParagraphRecord) (pageTitle : String)
    (st : SessionState) (d : AnnotDoc) (outcome : GatewayOutcome)
    (h : outcome = .transportError ∨ ∃ status, outcome = .httpError status) :
    runCheck paragraphs pageTitle st d outcome = (st, d) := by
  rcases h with h | ⟨status, h⟩ <;> subst h <;> unfold runCheck <;>
    (repeat' split) <;> simp_all

/-- Witness for C6 at a concrete failing run. -/
theorem c6_failure_preserves_state_witness :
    runCheck [⟨"T", 0, 0⟩, ⟨"• A", 0, 0⟩] "pt"
      ⟨[⟨"old", "document_wide", []⟩], none⟩ ⟨["T", "• A"], "T • A", [], []⟩
      .transportError =
      (⟨[⟨"old", "document_wide", []⟩], none⟩, ⟨["T", "• A"], "T • A", [], []⟩) :=
  c6_failure_preserves_state [⟨"T", 0, 0⟩, ⟨"• A", 0, 0⟩] "pt"
    ⟨[⟨"old", "document_wide", []⟩], none⟩ ⟨["T", "• A"], "T • A", [], []⟩
    .transportError (Or.inl rfl)

/-! ## C7 — score defaulting and the top message tier -/

/-- C7: an absent, null, or non-numeric score is displayed as exactly 100,
and every score of at least 90 (in particular the defaulted 100) is
rendered with the top ("excellent") message tier. -/
theorem c7_score_default (q : ℚ) (hq : (90 : ℚ) ≤ q) :
    displayedScore .absent = 100 ∧ displayedScore .jsNull = 100 ∧
    displayedScore .notNum = 100 ∧ scoreTier (effectiveScoreRun .jsNull) = .excellent ∧
    scoreTier (effectiveScoreRun (.num q)) = .excellent := by
  have hexc : ∀ r : ℚ, (90 : ℚ) ≤ r → scoreTier r = .excellent := by
    intro r hr
    have hge : (90 : ℤ) ≤ jsRound r := by
      unfold jsRound
      rw [Int.le_floor]
      push_cast
      linarith
    unfold scoreTier
    rw [if_pos hge]
  refine ⟨?_, ?_, ?_, hexc _ (by norm_num [effectiveScoreRun]), hexc _ hq⟩ <;>
    · simp [displayedScore, effectiveScoreRun, jsRound]
      norm_num [Int.floor_eq_iff]

/-- Witness for C7 at the concrete score 95. -/
theorem c7_score_default_witness :
    (90 : ℚ) ≤ 95 ∧ (displayedScore .absent = 100 ∧ displayedScore .jsNull = 100 ∧
      displayedScore .notNum = 100 ∧ scoreTier (effectiveScoreRun .jsNull) = .excellent ∧
      scoreTier (effectiveScoreRun (.num 95)) = .excellent) :=
  ⟨by decide, c7_score_default 95 (by decide)⟩

/-! ## C8 — the keyword fallback tier -/

/-- C8 counterexample: the target `"abc def"` defeats tiers 1–3 against
this document, its extracted keywords are `["abc", "def"]`, and the body
contains the keyword `"abc"` — but the keyword loop only searches keywords
*strictly longer* than 3 units, so both keywords are skipped and the
locator returns null instead of the first keyword's hit. -/
theorem c8_counterexample :
    Taskpane.extractKeywords "abc def" = ["abc", "def"] ∧
    jsIncludes "xyz abc" "abc" = true ∧
    Taskpane.findTextInDocument ⟨["xyz"], "xyz abc"⟩ "abc def" = none := by decide

/-- C8 amended: when tiers 1–3 fail, the legacy locator runs the keyword
fallback over the deduplicated extracted keywords in order, but searches the
whole document body only for keywords strictly longer than 3 units; it
returns the first hit's range, and returns null when no such keyword has a
hit (keywords of exactly 3 units are extracted but never searched). -/
theorem c8_keyword_fallback (doc : Taskpane.LocDoc) (searchText : String)
    (hlen : 3 ≤ searchText.length)
    (h1 : Taskpane.tier1 doc searchText = none)
    (h2 : Taskpane.tier2 doc searchText = none)
    (h3 : Taskpane.tier3 doc searchText = none) :
    Taskpane.findTextInDocument doc searchText = Taskpane.tier4 doc searchText ∧
    (∀ pre k post, Taskpane.extractKeywords searchText = pre ++ k :: post →
      (∀ k' ∈ pre, ¬(3 < k'.length ∧ jsIncludes doc.body k' = true)) →
      3 < k.length → jsIncludes doc.body k = true →
      Taskpane.findTextInDocument doc searchText = some (4, WRange.bodyHit k)) ∧
    ((∀ k ∈ Taskpane.extractKeywords searchText,
        ¬(3 < k.length ∧ jsIncludes doc.body k = true)) →
      Taskpane.findTextInDocument doc searchText = none) := by
  have hfall : Taskpane.findTextInDocument doc searchText = Taskpane.tier4 doc searchText := by
    unfold Taskpane.findTextInDocument
    rw [if_neg (not_lt.mpr hlen), h1, h2, h3]
    rfl
  refine ⟨hfall, ?_, ?_⟩
  · intro pre k post hsplit hpre hk hinc
    rw [hfall]
    unfold Taskpane.tier4
    rw [hsplit]
    apply firstSome_append_of_first
    · intro y hy
      by_cases hy1 : 3 < y.length
      · by_cases hy2 : jsIncludes doc.body y = true
        · exact absurd ⟨hy1, hy2⟩ (hpre y hy)
        · simp [hy2]
      · simp [hy1]
    · simp [hk, hinc]
  · intro hall
    rw [hfall]
    unfold Taskpane.tier4
    rw [firstSome_eq_none]
    intro y hy
    by_cases hy1 : 3 < y.length
    · by_cases hy2 : jsIncludes doc.body y = true
      · exact absurd ⟨hy1, hy2⟩ (hall y hy)
      · simp [hy2]
    · simp [hy1]

/-- Witness for the amended C8 at concrete inputs. -/
theorem c8_keyword_fallback_witness :
    3 ≤ ("ab abcd" : String).length ∧
    Taskpane.tier1 ⟨["xyz"], "xyz abcd"⟩ "ab abcd" = none ∧
    Taskpane.tier2 ⟨["xyz"], "xyz abcd"⟩ "ab abcd" = none ∧
    Taskpane.tier3 ⟨["xyz"], "xyz abcd"⟩ "ab abcd" = none ∧
    Taskpane.extractKeywords "ab abcd" = [] ++ "abcd" :: [] ∧
    Taskpane.findTextInDocument ⟨["xyz"], "xyz abcd"⟩ "ab abcd" =
      some (4, WRange.bodyHit "abcd") := by
  refine ⟨by decide, by decide, by decide, by decide, by decide, ?_⟩
  exact (c8_keyword_fallback ⟨["xyz"], "xyz abcd"⟩ "ab abcd" (by decide) (by decide)
    (by decide) (by decide)).2.1 [] "abcd" [] (by decide) (by simp) (by decide) (by decide)

/-! ## C9 — annotation idempotence in comment count -/

/-- One `showAllComments` loop iteration preserves paragraph and body text,
and appends a comment batch determined only by the paragraph texts. -/
theorem applyFindingAll_spec (pt : String) (d : AnnotDoc) (r : EvaluationResult) :
    (applyFindingAll pt d r).paragraphs = d.paragraphs ∧
    (applyFindingAll pt d r).body = d.body ∧
    ∃ δ, (applyFindingAll pt d r).comments = d.comments ++ δ ∧
      ∀ d' : AnnotDoc, d'.paragraphs = d.paragraphs →
        (applyFindingAll pt d' r).comments = d'.comments ++ δ := by
  by_cases hc : r.scope = scopeValue .all_summaries ∧ r.target_text = pt
  · have heq : ∀ dd : AnnotDoc, applyFindingAll pt dd r =
        AnnotDoc.mk dd.paragraphs dd.body (dd.highlights ++ [WRange.para 0])
          (dd.comments ++ [Comment.mk (WRange.para 0) (commentTextFor (getScopeName r.scope)
            (r.criteria_results.filter (·.has_issues)))]) := by
      intro dd
      unfold applyFindingAll
      rw [if_pos hc]
    refine ⟨by rw [heq], by rw [heq], _, by rw [heq], ?_⟩
    intro d' _
    rw [heq]
  · rcases hf : Part001.findTextInDocument d.paragraphs r.target_text with _ | tr
    · have heq : ∀ dd : AnnotDoc, dd.paragraphs = d.paragraphs →
          applyFindingAll pt dd r = dd := by
        intro dd hdd
        unfold applyFindingAll
        rw [if_neg hc, hdd, hf]
      refine ⟨by rw [heq d rfl], by rw [heq d rfl], [], by rw [heq d rfl]; simp, ?_⟩
      intro d' hd
      rw [heq d' hd]
      simp
    · rcases tr with ⟨tier, rng⟩
      have heq : ∀ dd : AnnotDoc, dd.paragraphs = d.paragraphs →
          applyFindingAll pt dd r =
            AnnotDoc.mk dd.paragraphs dd.body (dd.highlights ++ [rng])
              (dd.comments ++ [Comment.mk rng (commentTextFor (getScopeName r.scope)
                (r.criteria_results.filter (·.has_issues)))]) := by
        intro dd hdd
        unfold applyFindingAll
        rw [if_neg hc, hdd, hf]
      refine ⟨by rw [heq d rfl], by rw [heq d rfl], _, by rw [heq d rfl], ?_⟩
      intro d' hd
      rw [heq d' hd]

/-- The same for one `filterCommentsByScope` loop iteration. -/
theorem applyFindingScoped_spec (pt : String) (sc : EvaluationScope) (d : AnnotDoc)
    (r : EvaluationResult) :
    (applyFindingScoped pt sc d r).paragraphs = d.paragraphs ∧
    (applyFindingScoped pt sc d r).body = d.body ∧
    ∃ δ, (applyFindingScoped pt sc d r).comments = d.comments ++ δ ∧
      ∀ d' : AnnotDoc, d'.paragraphs = d.paragraphs →
        (applyFindingScoped pt sc d' r).comments = d'.comments ++ δ := by
  by_cases hc : sc = EvaluationScope.all_summaries ∧ r.target_text = pt
  · have heq : ∀ dd : AnnotDoc, applyFindingScoped pt sc dd r =
        AnnotDoc.mk dd.paragraphs dd.body (dd.highlights ++ [WRange.para 0])
          (dd.comments ++ [Comment.mk (WRange.para 0) (commentTextFor
            (getScopeName (scopeValue sc)) (r.criteria_results.filter (·.has_issues)))]) := by
      intro dd
      unfold applyFindingScoped
      rw [if_pos hc]
    refine ⟨by rw [heq], by rw [heq], _, by rw [heq], ?_⟩
    intro d' _
    rw [heq]
  · rcases hf : Part001.findTextInDocument d.paragraphs r.target_text with _ | tr
    · have heq : ∀ dd : AnnotDoc, dd.paragraphs = d.paragraphs →
          applyFindingScoped pt sc dd r = dd := by
        intro dd hdd
        unfold applyFindingScoped
        rw [if_neg hc, hdd, hf]
      refine ⟨by rw [heq d rfl], by rw [heq d rfl], [], by rw [heq d rfl]; simp, ?_⟩
      intro d' hd
      rw [heq d' hd]
      simp
    · rcases tr with ⟨tier, rng⟩
      have heq : ∀ dd : AnnotDoc, dd.paragraphs = d.paragraphs →
          applyFindingScoped pt sc dd r =
            AnnotDoc.mk dd.paragraphs dd.body (dd.highlights ++ [rng])
              (dd.comments ++ [Comment.mk rng (commentTextFor
                (getScopeName (scopeValue sc)) (r.criteria_results.filter (·.has_issues)))]) := by
        intro dd hdd
        unfold applyFindingScoped
        rw [if_neg hc, hdd, hf]
      refine ⟨by rw [heq d rfl], by rw [heq d rfl], _, by rw [heq d rfl], ?_⟩
      intro d' hd
      rw [heq d' hd]

/-- A fold of such a loop body preserves texts and appends a comment batch
determined only by the paragraph texts. -/
theorem foldl_apply_spec (f : AnnotDoc → EvaluationResult → AnnotDoc)
    (hf : ∀ d r, (f d r).paragraphs = d.paragraphs ∧ (f d r).body = d.body ∧
      ∃ δ, (f d r).comments = d.comments ++ δ ∧
        ∀ d' : AnnotDoc, d'.paragraphs = d.paragraphs →
          (f d' r).comments = d'.comments ++ δ) :
    ∀ (rs : List EvaluationResult) (d : AnnotDoc),
      (rs.foldl f d).paragraphs = d.paragraphs ∧ (rs.foldl f d).body = d.body ∧
      ∃ Δ, (rs.foldl f d).comments = d.comments ++ Δ ∧
        ∀ d' : AnnotDoc, d'.paragraphs = d.paragraphs →
          (rs.foldl f d').comments = d'.comments ++ Δ
  | [], d => ⟨rfl, rfl, [], by simp, fun d' _ => by simp⟩
  | r :: rs, d => by
    obtain ⟨hp, hb, δ, hcom, hgen⟩ := hf d r
    obtain ⟨hp2, hb2, Δ, hcom2, hgen2⟩ := foldl_apply_spec f hf rs (f d r)
    refine ⟨by rw [List.foldl_cons, hp2, hp], by rw [List.foldl_cons, hb2, hb],
      δ ++ Δ, ?_, ?_⟩
    · rw [List.foldl_cons, hcom2, hcom, List.append_assoc]
    · intro d' hd
      rw [List.foldl_cons, hgen2 (f d' r) (by rw [(hf d' r).1, hd, ← hp]),
        hgen d' hd, List.append_assoc]

/-- C9: applying annotations is idempotent in comment count — for a fixed
result set and unchanged document text, running `showAllComments` (or
`filterCommentsByScope`) twice leaves exactly as many live comments as
running it once, because each pass clears every comment before
re-attaching. -/
theorem c9_apply_idempotent (pageTitle : String) (results : List EvaluationResult)
    (sc : EvaluationScope) (d : AnnotDoc) :
    (showAllComments pageTitle results
        (showAllComments pageTitle results d)).comments.length =
      (showAllComments pageTitle results d).comments.length ∧
    (filterCommentsByScope pageTitle sc results
        (filterCommentsByScope pageTitle sc results d)).comments.length =
      (filterCommentsByScope pageTitle sc results d).comments.length := by
  constructor
  · by_cases hre : results.isEmpty
    · simp [showAllComments, hre]
    · have hEq : ∀ dd : AnnotDoc, showAllComments pageTitle results dd =
          (results.filter resultHasIssues).foldl (applyFindingAll pageTitle)
            (removeAllComments dd) := by
        intro dd
        unfold showAllComments
        rw [if_neg hre]
      rw [hEq, hEq]
      obtain ⟨hp1, _, Δ, hcom1, hgen1⟩ :=
        foldl_apply_spec (applyFindingAll pageTitle) (applyFindingAll_spec pageTitle)
          (results.filter resultHasIssues) (removeAllComments d)
      generalize hX : (results.filter resultHasIssues).foldl
          (applyFindingAll pageTitle) (removeAllComments d) = X at hp1 hcom1 ⊢
      rw [hgen1 (removeAllComments X) (by exact hp1), hcom1]
      rfl
  · by_cases hre : results.isEmpty
    · simp [filterCommentsByScope, hre]
    · have hEq : ∀ dd : AnnotDoc, filterCommentsByScope pageTitle sc results dd =
          (results.filter fun r => scopeMatches r.scope sc && resultHasIssues r).foldl
            (applyFindingScoped pageTitle sc) (removeAllComments dd) := by
        intro dd
        unfold filterCommentsByScope
        rw [if_neg hre]
      rw [hEq, hEq]
      obtain ⟨hp1, _, Δ, hcom1, hgen1⟩ :=
        foldl_apply_spec (applyFindingScoped pageTitle sc)
          (applyFindingScoped_spec pageTitle sc)
          (results.filter fun r => scopeMatches r.scope sc && resultHasIssues r)
          (removeAllComments d)
      generalize hX : (results.filter fun r =>
          scopeMatches r.scope sc && resultHasIssues r).foldl
          (applyFindingScoped pageTitle sc) (removeAllComments d) = X at hp1 hcom1 ⊢
      rw [hgen1 (removeAllComments X) (by exact hp1), hcom1]
      rfl

end StoryChecker
